import Mathlib

set_option maxHeartbeats 1000000

/-! Verification model of the tianxin-bot repository.  The message/command
parser (`src/app/bot/message.js`), the WebSocket protocol adapter
(`src/app/bot/adapter.js`) and the plugin manager (`src/app/plugin/loader.js`,
`manager.js`) are embedded as executable Lean definitions translated from the
JavaScript source, and the specification claims are settled as theorems about
those definitions.  JavaScript strings are modelled at the level of their
character sequences (`String.data`); all inputs appearing in the claims are
ASCII, where JS UTF-16 code-unit operations and Lean character operations
agree. -/

/-- Character-list version of JS `String.prototype.startsWith`:
`listIsPfxOf p s` holds when `p` is a prefix of `s`. -/
def listIsPfxOf : List Char → List Char → Bool
  | [], _ => true
  | _ :: _, [] => false
  | a :: as, b :: bs => a == b && listIsPfxOf as bs

/-- Model of JS `text.startsWith(pat)`. -/
def jsStartsWith (s pat : String) : Bool :=
  listIsPfxOf pat.data s.data

/-- Model of JS `text.slice(n)` (drop the first `n` code units). -/
def jsSlice (s : String) (n : Nat) : String :=
  ⟨s.data.drop n⟩

/-- Drop leading whitespace from a character list. -/
def trimLeftChars : List Char → List Char
  | [] => []
  | c :: cs => if c.isWhitespace then trimLeftChars cs else c :: cs

/-- Model of JS `text.trim()`: drop whitespace at both ends. -/
def jsTrim (s : String) : String :=
  ⟨(trimLeftChars (trimLeftChars s.data).reverse).reverse⟩

/-- Tokenizer used to model JS `text.split(/\s+/)` on an already-trimmed,
non-empty string: it returns the maximal runs of non-whitespace characters.
The accumulator holds the current token reversed. -/
def splitWsAux : List Char → List Char → List String
  | [], acc => if acc.isEmpty then [] else [⟨acc.reverse⟩]
  | c :: cs, acc =>
    if c.isWhitespace then
      if acc.isEmpty then splitWsAux cs [] else ⟨acc.reverse⟩ :: splitWsAux cs []
    else splitWsAux cs (c :: acc)

/-- Model of JS `text.split(/\s+/)` restricted to the trimmed strings
`parseCommand` applies it to. -/
def jsSplitWs (s : String) : List String :=
  splitWsAux s.data []

/-- Result of `MessageProcessor.parseCommand`: the source returns
`{ command, args, prefix }`; the matched command-prefix field is named
`pfx` here because its source name is reserved in Lean. -/
structure CommandInfo where
  command : String
  args : List String
  pfx : String
deriving DecidableEq, Repr

/-- The prefix-scanning loop of `MessageProcessor.parseCommand`
(`for (const p of this.commandPrefix) if (text.startsWith(p)) ...`):
the first matching entry wins. -/
def findPfx : List String → String → Option String
  | [], _ => none
  | p :: ps, t => if jsStartsWith t p then some p else findPfx ps t

/-- Translation of `MessageProcessor.parseCommand(text)`
(src/app/bot/message.js): reject empty text (JS falsiness of `''`), find the
first matching command prefix, then apply the source's `if (!prefix) return
null` guard — `prefix` is still `null` when no entry matched, but a matched
EMPTY-STRING prefix is equally falsy in JavaScript, so it is rejected by the
same guard; then strip the prefix, trim, reject if nothing remains, split on
whitespace runs, and return the head as the command with the rest as
arguments. -/
def parseCommand (prefixes : List String) (text : String) : Option CommandInfo :=
  if text = "" then none
  else
    match findPfx prefixes text with
    | none => none
    | some p =>
      if p = "" then none
      else
        let commandText := jsTrim (jsSlice text p.data.length)
        if commandText = "" then none
        else
          let parts := jsSplitWs commandText
          some { command := parts.headD "", args := parts.tail, pfx := p }

example : parseCommand ["#", ""] "#echo hello world" =
    some { command := "echo", args := ["hello", "world"], pfx := "#" } := by decide

example : parseCommand ["#", ""] "hello" = none := by decide

/-! Association-list model of a JavaScript `Map` (insertion-ordered, unique
keys).  `mapSet` replaces an existing key in place and otherwise appends at
the end, and `mapDelete` removes the key — both exactly as `Map.prototype.set`
and `Map.prototype.delete` behave; `Map.prototype.has(k)` is modelled as
`(mapGet m k).isSome`. -/

/-- Lookup by key, first binding wins (keys are unique in every reachable
state, so this is JS `Map.prototype.get`). -/
def mapGet {α β : Type} [DecidableEq α] : List (α × β) → α → Option β
  | [], _ => none
  | p :: ps, k => if p.1 = k then some p.2 else mapGet ps k

/-- JS `Map.prototype.set`: replace in place if present, else append. -/
def mapSet {α β : Type} [DecidableEq α] : List (α × β) → α → β → List (α × β)
  | [], k, v => [(k, v)]
  | p :: ps, k, v => if p.1 = k then (k, v) :: ps else p :: mapSet ps k v

/-- JS `Map.prototype.delete` (dropping every binding of the key). -/
def mapDelete {α β : Type} [DecidableEq α] : List (α × β) → α → List (α × β)
  | [], _ => []
  | p :: ps, k => if p.1 = k then mapDelete ps k else p :: mapDelete ps k

/-- The keys of an association list, in insertion order. -/
def mapKeys {α β : Type} (m : List (α × β)) : List α :=
  m.map Prod.fst

/-- Uniqueness of keys: the registry/pending-table invariant. -/
def keysNodup {α β : Type} (m : List (α × β)) : Prop :=
  (mapKeys m).Nodup

theorem mapGet_mapSet_self {α β : Type} [DecidableEq α]
    (m : List (α × β)) (k : α) (v : β) : mapGet (mapSet m k v) k = some v := by
  induction m with
  | nil => simp [mapSet, mapGet]
  | cons p ps ih =>
    by_cases h : p.1 = k
    · simp [mapSet, mapGet, h]
    · simp [mapSet, mapGet, h, ih]

theorem mapGet_mapDelete_self {α β : Type} [DecidableEq α]
    (m : List (α × β)) (k : α) : mapGet (mapDelete m k) k = none := by
  induction m with
  | nil => simp [mapDelete, mapGet]
  | cons p ps ih =>
    by_cases h : p.1 = k
    · simp [mapDelete, h, ih]
    · simp [mapDelete, mapGet, h, ih]

theorem mapGet_mapDelete_ne {α β : Type} [DecidableEq α]
    (m : List (α × β)) (k k' : α) (h : k' ≠ k) :
    mapGet (mapDelete m k) k' = mapGet m k' := by
  induction m with
  | nil => simp [mapDelete]
  | cons p ps ih =>
    by_cases hp : p.1 = k
    · have hne : ¬ p.1 = k' := fun hc => h (hc ▸ hp)
      have h1 : mapDelete (p :: ps) k = mapDelete ps k := by simp [mapDelete, hp]
      have h2 : mapGet (p :: ps) k' = mapGet ps k' := by simp [mapGet, hne]
      rw [h1, h2, ih]
    · have h1 : mapDelete (p :: ps) k = p :: mapDelete ps k := by simp [mapDelete, hp]
      by_cases hp' : p.1 = k'
      · have h2 : mapGet (p :: ps) k' = some p.2 := by simp [mapGet, hp']
        have h3 : mapGet (p :: mapDelete ps k) k' = some p.2 := by simp [mapGet, hp']
        rw [h1, h2, h3]
      · have h2 : mapGet (p :: ps) k' = mapGet ps k' := by simp [mapGet, hp']
        have h3 : mapGet (p :: mapDelete ps k) k' = mapGet (mapDelete ps k) k' := by
          simp [mapGet, hp']
        rw [h1, h2, h3, ih]

theorem mapKeys_cons {α β : Type} (p : α × β) (ps : List (α × β)) :
    mapKeys (p :: ps) = p.1 :: mapKeys ps := rfl

theorem mem_mapKeys_mapSet {α β : Type} [DecidableEq α]
    (m : List (α × β)) (k : α) (v : β) (a : α)
    (h : a ∈ mapKeys (mapSet m k v)) : a = k ∨ a ∈ mapKeys m := by
  induction m with
  | nil =>
    simp [mapSet, mapKeys] at h
    exact Or.inl h
  | cons p ps ih =>
    by_cases hp : p.1 = k
    · rw [show mapSet (p :: ps) k v = (k, v) :: ps by simp [mapSet, hp],
        mapKeys_cons] at h
      rcases List.mem_cons.mp h with h | h
      · exact Or.inl h
      · exact Or.inr (by rw [mapKeys_cons]; exact List.mem_cons_of_mem _ h)
    · rw [show mapSet (p :: ps) k v = p :: mapSet ps k v by simp [mapSet, hp],
        mapKeys_cons] at h
      rcases List.mem_cons.mp h with h | h
      · exact Or.inr (by rw [mapKeys_cons]; exact List.mem_cons.mpr (Or.inl h))
      · rcases ih h with h' | h'
        · exact Or.inl h'
        · exact Or.inr (by rw [mapKeys_cons]; exact List.mem_cons_of_mem _ h')

theorem mem_mapKeys_mapDelete {α β : Type} [DecidableEq α]
    (m : List (α × β)) (k : α) (a : α)
    (h : a ∈ mapKeys (mapDelete m k)) : a ∈ mapKeys m := by
  induction m with
  | nil => simpa [mapDelete] using h
  | cons p ps ih =>
    by_cases hp : p.1 = k
    · rw [show mapDelete (p :: ps) k = mapDelete ps k by simp [mapDelete, hp]] at h
      rw [mapKeys_cons]
      exact List.mem_cons_of_mem _ (ih h)
    · rw [show mapDelete (p :: ps) k = p :: mapDelete ps k by simp [mapDelete, hp],
        mapKeys_cons] at h
      rw [mapKeys_cons]
      rcases List.mem_cons.mp h with h | h
      · exact List.mem_cons.mpr (Or.inl h)
      · exact List.mem_cons_of_mem _ (ih h)

theorem keysNodup_mapSet {α β : Type} [DecidableEq α]
    (m : List (α × β)) (k : α) (v : β) (h : keysNodup m) :
    keysNodup (mapSet m k v) := by
  induction m with
  | nil => simp [keysNodup, mapSet, mapKeys]
  | cons p ps ih =>
    rw [keysNodup, mapKeys_cons, List.nodup_cons] at h
    by_cases hp : p.1 = k
    · rw [keysNodup,
        show mapSet (p :: ps) k v = (k, v) :: ps by simp [mapSet, hp],
        mapKeys_cons, List.nodup_cons]
      exact ⟨by simpa [hp] using h.1, h.2⟩
    · rw [keysNodup,
        show mapSet (p :: ps) k v = p :: mapSet ps k v by simp [mapSet, hp],
        mapKeys_cons, List.nodup_cons]
      refine ⟨?_, ih h.2⟩
      intro hc
      rcases mem_mapKeys_mapSet ps k v p.1 hc with h' | h'
      · exact hp h'
      · exact h.1 h'

theorem keysNodup_mapDelete {α β : Type} [DecidableEq α]
    (m : List (α × β)) (k : α) (h : keysNodup m) :
    keysNodup (mapDelete m k) := by
  induction m with
  | nil => simpa [keysNodup, mapDelete] using h
  | cons p ps ih =>
    rw [keysNodup, mapKeys_cons, List.nodup_cons] at h
    by_cases hp : p.1 = k
    · rw [show mapDelete (p :: ps) k = mapDelete ps k by simp [mapDelete, hp]]
      exact ih h.2
    · rw [keysNodup,
        show mapDelete (p :: ps) k = p :: mapDelete ps k by simp [mapDelete, hp],
        mapKeys_cons, List.nodup_cons]
      exact ⟨fun hc => h.1 (mem_mapKeys_mapDelete ps k p.1 hc), ih h.2⟩

/-! Protocol adapter (src/app/bot/adapter.js, WebSocket transport).  The
adapter state carries the fields mutated by the source: `connected`,
`echoCounter` and `pendingRequests` (the `ws` handle itself and the
resolve/reject continuations are external objects; the continuations'
invocations are recorded as events instead).  Each source handler
(`send`, `handleWebSocketMessage`, the `close`/`open` listeners, the
`setTimeout` callback installed by `send`, and `disconnect`) becomes one
operation on this state, and `runOps` executes an arbitrary interleaving of
them, which is exactly the single-threaded event-loop execution of the
source. -/

/-- One entry of `this.pendingRequests`; the source stores the
resolve/reject continuations, whose calls are modelled as events, so the
model keeps the action name captured by the enclosing `send` closure. -/
structure PendingEntry where
  action : String
deriving DecidableEq, Repr

/-- The mutable fields of the `Adapter` class. -/
structure AdapterState where
  connected : Bool
  echoCounter : Nat
  pendingRequests : List (Nat × PendingEntry)
deriving DecidableEq, Repr

/-- State of a freshly constructed `Adapter` (its constructor sets
`connected = false`, `echoCounter = 0`, `pendingRequests = new Map()`). -/
def initAdapter : AdapterState :=
  { connected := false, echoCounter := 0, pendingRequests := [] }

/-- The adapter options read by the source: `config.timeout` and
`config.reconnectDelay`, both optional with defaults 30000 and 5000. -/
structure AdapterConfig where
  timeout : Option Nat
  reconnectDelay : Option Nat
deriving DecidableEq, Repr

/-- A decoded inbound frame, after the `JSON.parse` in
`handleWebSocketMessage`: a frame carrying an `echo` field is a response;
otherwise it is classified by `post_type` (message, lifecycle-connect meta
event, or anything else); a frame that fails to parse is malformed. -/
inductive Frame
  | response (echo : Nat) (ok : Bool) (msg : Option String)
  | postMessage
  | lifecycleConnect (selfId : Nat)
  | otherEvent
  | malformed
deriving DecidableEq, Repr

/-- Observable actions of the adapter: promise completions, emitted events,
log lines, and scheduled timers. -/
inductive AdapterEv
  | assigned (echo : Nat)
  | timeoutScheduled (echo : Nat) (ms : Nat)
  | rejectedNotConnected
  | rejectedSendError (echo : Nat)
  | timeoutRejected (echo : Nat)
  | resolved (echo : Nat)
  | rejectedRemote (echo : Nat)
  | emittedMessage
  | emittedSelfId (id : Nat)
  | emittedEvent
  | errorLogged
  | warnLogged
  | reconnectScheduled (delayMs : Nat)
deriving DecidableEq, Repr

/-- Translation of `Adapter.send(action, params)`: reject immediately when
not connected; otherwise take a fresh echo id (`this.echoCounter++`), insert
the pending entry, and attempt `this.ws.send` — on success a timeout of
`config.timeout || 30000` ms is scheduled for that echo, on a synchronous
send error the entry is deleted again and the call rejects.  `wsOk` stands
for whether the external `ws.send` call throws. -/
def send (cfg : AdapterConfig) (st : AdapterState) (action : String)
    (wsOk : Bool) : AdapterState × List AdapterEv :=
  if st.connected = false then (st, [AdapterEv.rejectedNotConnected])
  else
    let echo := st.echoCounter
    let st1 : AdapterState :=
      { st with
        echoCounter := st.echoCounter + 1,
        pendingRequests := mapSet st.pendingRequests echo { action := action } }
    if wsOk then
      (st1, [AdapterEv.assigned echo,
             AdapterEv.timeoutScheduled echo (cfg.timeout.getD 30000)])
    else
      ({ st1 with pendingRequests := mapDelete st1.pendingRequests echo },
       [AdapterEv.assigned echo, AdapterEv.rejectedSendError echo])

/-- Translation of the `setTimeout` callback installed by `send`: if the
echo is still pending, delete it and reject the call with the timeout
error. -/
def fireTimeout (st : AdapterState) (echo : Nat) : AdapterState × List AdapterEv :=
  if (mapGet st.pendingRequests echo).isSome then
    ({ st with pendingRequests := mapDelete st.pendingRequests echo },
     [AdapterEv.timeoutRejected echo])
  else (st, [])

/-- Translation of `Adapter.handleWebSocketMessage`: responses (frames with
an `echo`) resolve or reject the matching pending call and are silently
dropped when no entry matches; message frames, lifecycle-connect meta frames
and other frames are re-emitted; a JSON parse failure is logged and
dropped. -/
def handleWebSocketMessage (st : AdapterState) (f : Frame) :
    AdapterState × List AdapterEv :=
  match f with
  | Frame.malformed => (st, [AdapterEv.errorLogged])
  | Frame.response echo ok _msg =>
    match mapGet st.pendingRequests echo with
    | none => (st, [])
    | some _ =>
      ({ st with pendingRequests := mapDelete st.pendingRequests echo },
       if ok then [AdapterEv.resolved echo] else [AdapterEv.rejectedRemote echo])
  | Frame.postMessage => (st, [AdapterEv.emittedMessage])
  | Frame.lifecycleConnect sid => (st, [AdapterEv.emittedSelfId sid])
  | Frame.otherEvent => (st, [AdapterEv.emittedEvent])

/-- Translation of the `ws.on('close', ...)` handler: log a warning, set
`this.connected = false`, and call `this.reconnect()`, which schedules a
retry after `config.reconnectDelay || 5000` ms.  The handler does not touch
`this.pendingRequests`. -/
def handleClose (cfg : AdapterConfig) (st : AdapterState) :
    AdapterState × List AdapterEv :=
  ({ st with connected := false },
   [AdapterEv.warnLogged, AdapterEv.reconnectScheduled (cfg.reconnectDelay.getD 5000)])

/-- Translation of the `ws.on('open', ...)` handler: set
`this.connected = true` (used both for the first connection and for every
reconnection attempt that succeeds). -/
def wsOpen (st : AdapterState) : AdapterState × List AdapterEv :=
  ({ st with connected := true }, [])

/-- Translation of `Adapter.disconnect()`: close and drop the socket, set
`connected = false`, and clear the pending table (without resolving or
rejecting the entries).  `echoCounter` is not reset. -/
def disconnect (st : AdapterState) : AdapterState × List AdapterEv :=
  ({ st with connected := false, pendingRequests := [] }, [])

/-- Event-loop steps of one adapter instance. -/
inductive AdapterOp
  | send (action : String) (wsOk : Bool)
  | frame (f : Frame)
  | close
  | wsOpen
  | disconnect
  | timeout (echo : Nat)
deriving DecidableEq, Repr

/-- Dispatch one event-loop step to the corresponding source handler. -/
def stepOp (cfg : AdapterConfig) (st : AdapterState) :
    AdapterOp → AdapterState × List AdapterEv
  | AdapterOp.send a ok => send cfg st a ok
  | AdapterOp.frame f => handleWebSocketMessage st f
  | AdapterOp.close => handleClose cfg st
  | AdapterOp.wsOpen => wsOpen st
  | AdapterOp.disconnect => disconnect st
  | AdapterOp.timeout e => fireTimeout st e

/-- Run a sequence of event-loop steps, collecting all events. -/
def runOps (cfg : AdapterConfig) : AdapterState → List AdapterOp →
    AdapterState × List AdapterEv
  | st, [] => (st, [])
  | st, op :: ops =>
    let r := stepOp cfg st op
    let r2 := runOps cfg r.1 ops
    (r2.1, r.2 ++ r2.2)

/-- The correlation ids handed out to `send` calls, in order of
assignment. -/
def assignedIds (evs : List AdapterEv) : List Nat :=
  evs.filterMap fun e =>
    match e with
    | AdapterEv.assigned n => some n
    | _ => none

theorem assignedIds_append (l₁ l₂ : List AdapterEv) :
    assignedIds (l₁ ++ l₂) = assignedIds l₁ ++ assignedIds l₂ := by
  simp [assignedIds, List.filterMap_append]

/-- Each event-loop step either assigns no id and leaves the counter alone,
or assigns exactly the current counter value and bumps the counter. -/
theorem stepOp_counter_assigned (cfg : AdapterConfig) (st : AdapterState)
    (op : AdapterOp) :
    (assignedIds (stepOp cfg st op).2 = []
        ∧ (stepOp cfg st op).1.echoCounter = st.echoCounter)
    ∨ (assignedIds (stepOp cfg st op).2 = [st.echoCounter]
        ∧ (stepOp cfg st op).1.echoCounter = st.echoCounter + 1) := by
  cases op with
  | send a ok =>
    by_cases hc : st.connected = false
    · left
      simp [stepOp, send, hc, assignedIds]
    · right
      cases ok <;> simp [stepOp, send, hc, assignedIds]
  | frame f =>
    left
    cases f with
    | response e ok m =>
      cases hg : mapGet st.pendingRequests e with
      | none => simp [stepOp, handleWebSocketMessage, hg, assignedIds]
      | some v => cases ok <;> simp [stepOp, handleWebSocketMessage, hg, assignedIds]
    | postMessage => simp [stepOp, handleWebSocketMessage, assignedIds]
    | lifecycleConnect sid => simp [stepOp, handleWebSocketMessage, assignedIds]
    | otherEvent => simp [stepOp, handleWebSocketMessage, assignedIds]
    | malformed => simp [stepOp, handleWebSocketMessage, assignedIds]
  | close =>
    left
    simp [stepOp, handleClose, assignedIds]
  | wsOpen =>
    left
    simp [stepOp, wsOpen, assignedIds]
  | disconnect =>
    left
    simp [stepOp, disconnect, assignedIds]
  | timeout e =>
    left
    by_cases h : (mapGet st.pendingRequests e).isSome
    · simp [stepOp, fireTimeout, h, assignedIds]
    · simp [stepOp, fireTimeout, h, assignedIds]

/-- Over any run, the assigned ids form a strictly increasing sequence, all
of them at least the starting counter, and the counter never decreases. -/
theorem runOps_assigned_chain (cfg : AdapterConfig) (ops : List AdapterOp) :
    ∀ st : AdapterState,
      List.Chain' (· < ·) (assignedIds (runOps cfg st ops).2)
      ∧ (∀ n ∈ assignedIds (runOps cfg st ops).2, st.echoCounter ≤ n)
      ∧ st.echoCounter ≤ (runOps cfg st ops).1.echoCounter := by
  induction ops with
  | nil =>
    intro st
    simp [runOps, assignedIds]
  | cons op ops ih =>
    intro st
    have hih := ih (stepOp cfg st op).1
    have hrun : runOps cfg st (op :: ops) =
        ((runOps cfg (stepOp cfg st op).1 ops).1,
         (stepOp cfg st op).2 ++ (runOps cfg (stepOp cfg st op).1 ops).2) := rfl
    rw [hrun]
    rcases stepOp_counter_assigned cfg st op with ⟨he, hcnt⟩ | ⟨he, hcnt⟩
    · refine ⟨?_, ?_, ?_⟩
      · rw [assignedIds_append, he, List.nil_append]
        exact hih.1
      · intro n hn
        rw [assignedIds_append, he, List.nil_append] at hn
        exact hcnt ▸ hih.2.1 n hn
      · exact le_trans (le_of_eq hcnt.symm) hih.2.2
    · refine ⟨?_, ?_, ?_⟩
      · rw [assignedIds_append, he, List.singleton_append]
        refine List.chain'_cons'.mpr ⟨?_, hih.1⟩
        intro y hy
        have hmem := List.mem_of_mem_head? hy
        have hle := hih.2.1 y hmem
        omega
      · intro n hn
        rw [assignedIds_append, he, List.singleton_append] at hn
        rcases List.mem_cons.mp hn with hn | hn
        · omega
        · have := hih.2.1 n hn
          omega
      · show st.echoCounter ≤ (runOps cfg (stepOp cfg st op).1 ops).1.echoCounter
        have := hih.2.2
        omega

/-- C6: over the lifetime of one `Adapter` instance — any interleaving of
`send` calls, inbound frames, unexpected closes, reconnections, timeouts and
`disconnect()` calls starting from the constructor state — the correlation
(echo) ids assigned to `send` calls are strictly increasing, hence pairwise
distinct: no id is ever reused.  In addition `disconnect()` never resets the
counter.  (A `send` issued while disconnected rejects before any id is
assigned, so it consumes no id.) -/
theorem adapter_echo_ids_unique_c6 :
    ∀ (cfg : AdapterConfig) (ops : List AdapterOp),
      List.Chain' (· < ·) (assignedIds (runOps cfg initAdapter ops).2)
      ∧ (assignedIds (runOps cfg initAdapter ops).2).Nodup
      ∧ ∀ st : AdapterState,
          ((stepOp cfg st AdapterOp.disconnect).1).echoCounter = st.echoCounter := by
  intro cfg ops
  have h := runOps_assigned_chain cfg ops initAdapter
  refine ⟨h.1, ?_, ?_⟩
  · have hp : (assignedIds (runOps cfg initAdapter ops).2).Pairwise (· < ·) :=
      List.chain'_iff_pairwise.mp h.1
    exact hp.imp fun hlt => Nat.ne_of_lt hlt
  · intro st
    simp [stepOp, disconnect]

/-- Concrete run exercising `adapter_echo_ids_unique_c6`: connect, two sends,
an unexpected close, a reconnect, another send, a `disconnect()`, a
reconnect and a final send; the four assigned ids 0,1,2,3 are strictly
increasing and distinct. -/
theorem adapter_echo_ids_unique_c6_witness :
    List.Chain' (· < ·) (assignedIds (runOps { timeout := none, reconnectDelay := none }
      initAdapter
      [AdapterOp.wsOpen, AdapterOp.send "a" true, AdapterOp.send "b" true,
       AdapterOp.close, AdapterOp.wsOpen, AdapterOp.send "c" true,
       AdapterOp.disconnect, AdapterOp.wsOpen, AdapterOp.send "d" true]).2)
    ∧ assignedIds (runOps { timeout := none, reconnectDelay := none }
      initAdapter
      [AdapterOp.wsOpen, AdapterOp.send "a" true, AdapterOp.send "b" true,
       AdapterOp.close, AdapterOp.wsOpen, AdapterOp.send "c" true,
       AdapterOp.disconnect, AdapterOp.wsOpen, AdapterOp.send "d" true]).2 =
      [0, 1, 2, 3] :=
  ⟨(adapter_echo_ids_unique_c6 { timeout := none, reconnectDelay := none }
      [AdapterOp.wsOpen, AdapterOp.send "a" true, AdapterOp.send "b" true,
       AdapterOp.close, AdapterOp.wsOpen, AdapterOp.send "c" true,
       AdapterOp.disconnect, AdapterOp.wsOpen, AdapterOp.send "d" true]).1,
   by decide⟩

/-- C5: when the configured timeout fires for a pending call, the call is
rejected with the timeout error and exactly its entry is removed from the
pending table (every other entry is untouched); an inbound response frame
whose echo matches no pending entry — including a response arriving after
that timeout already fired — is discarded without any state change, any
event, or any effect on other pending calls, and the handler returns
normally (it is a total function). -/
theorem adapter_timeout_unmatched_c5 :
    (∀ (st : AdapterState) (echo : Nat),
      (mapGet st.pendingRequests echo).isSome = true →
        fireTimeout st echo =
          ({ st with pendingRequests := mapDelete st.pendingRequests echo },
           [AdapterEv.timeoutRejected echo])
        ∧ mapGet (fireTimeout st echo).1.pendingRequests echo = none
        ∧ ∀ e', e' ≠ echo →
            mapGet (fireTimeout st echo).1.pendingRequests e' =
              mapGet st.pendingRequests e')
    ∧ (∀ (st : AdapterState) (echo : Nat) (ok : Bool) (msg : Option String),
        mapGet st.pendingRequests echo = none →
          handleWebSocketMessage st (Frame.response echo ok msg) = (st, []))
    ∧ (∀ (st : AdapterState) (echo : Nat) (ok : Bool) (msg : Option String),
        (mapGet st.pendingRequests echo).isSome = true →
          handleWebSocketMessage (fireTimeout st echo).1
              (Frame.response echo ok msg) =
            ((fireTimeout st echo).1, [])) := by
  refine ⟨?_, ?_, ?_⟩
  · intro st echo h
    refine ⟨by simp [fireTimeout, h], ?_, ?_⟩
    · simp [fireTimeout, h, mapGet_mapDelete_self]
    · intro e' hne
      simp [fireTimeout, h, mapGet_mapDelete_ne _ _ _ hne]
  · intro st echo ok msg h
    simp [handleWebSocketMessage, h]
  · intro st echo ok msg h
    have hnone : mapGet (fireTimeout st echo).1.pendingRequests echo = none := by
      simp [fireTimeout, h, mapGet_mapDelete_self]
    simp [handleWebSocketMessage, hnone]

/-- A sample adapter state used by the concrete instantiations below: one
call with echo 0 pending, counter already advanced to 1, connected. -/
def stPend : AdapterState :=
  { connected := true, echoCounter := 1,
    pendingRequests := [(0, { action := "send_group_msg" })] }

/-- The same state after its pending table has been emptied. -/
def stEmpty : AdapterState :=
  { connected := true, echoCounter := 1, pendingRequests := [] }

/-- A sample adapter configuration with both options left unset. -/
def cfgNone : AdapterConfig := { timeout := none, reconnectDelay := none }

/-- A sample adapter configuration with both options set as in
`config/config.js`. -/
def cfgDefault : AdapterConfig := { timeout := some 30000, reconnectDelay := some 5000 }

/-- Concrete run exercising `adapter_timeout_unmatched_c5`: with one pending
call of echo 0, the timeout removes it and rejects it; the late response for
echo 0 is then dropped with no state change; and a stray response for echo 7
on the original state is dropped as well. -/
theorem adapter_timeout_unmatched_c5_witness :
    fireTimeout stPend 0 = (stEmpty, [AdapterEv.timeoutRejected 0])
    ∧ handleWebSocketMessage stEmpty (Frame.response 0 true none) = (stEmpty, [])
    ∧ handleWebSocketMessage stPend (Frame.response 7 true none) = (stPend, []) := by
  refine ⟨?_, ?_, ?_⟩
  · exact (adapter_timeout_unmatched_c5.1 stPend 0 (by decide)).1
  · exact adapter_timeout_unmatched_c5.2.1 stEmpty 0 true none (by decide)
  · exact adapter_timeout_unmatched_c5.2.1 stPend 7 true none (by decide)

/-- C3 counterexample: the claim says every pending call is removed from the
pending table when the adapter transitions to disconnected on an unexpected
closure, and that no pending call from before the closure survives into the
reconnected state.  The `close` handler in the source only sets
`connected = false` and schedules a reconnect — it never touches
`pendingRequests`.  Concretely: after connect, one `send` (echo 0), an
unexpected close and a successful reconnect, the adapter is connected again
and the pending entry for echo 0 is still in the table. -/
theorem adapter_close_keeps_pending_c3_counterexample :
    ((runOps cfgDefault initAdapter
        [AdapterOp.wsOpen, AdapterOp.send "send_group_msg" true,
         AdapterOp.close]).1.connected = false
      ∧ (runOps cfgDefault initAdapter
        [AdapterOp.wsOpen, AdapterOp.send "send_group_msg" true,
         AdapterOp.close]).1.pendingRequests ≠ [])
    ∧ ((runOps cfgDefault initAdapter
        [AdapterOp.wsOpen, AdapterOp.send "send_group_msg" true,
         AdapterOp.close, AdapterOp.wsOpen]).1.connected = true
      ∧ (runOps cfgDefault initAdapter
        [AdapterOp.wsOpen, AdapterOp.send "send_group_msg" true,
         AdapterOp.close, AdapterOp.wsOpen]).1.pendingRequests =
        [(0, { action := "send_group_msg" })]) := by
  decide

/-- C3 (amended): on an unexpected transport closure the adapter sets
`connected = false` and schedules a single retry after the fixed backoff
delay `config.reconnectDelay || 5000` — but the pending-call table is left
completely unchanged by that transition (entries are only ever removed by
their own timeouts, by matching responses, or by an explicit
`disconnect()`), and a subsequent successful reconnection also leaves the
table unchanged, so calls pending at the closure survive into the
reconnected state. -/
theorem adapter_close_semantics_c3 :
    ∀ (cfg : AdapterConfig) (st : AdapterState),
      handleClose cfg st =
        ({ st with connected := false },
         [AdapterEv.warnLogged,
          AdapterEv.reconnectScheduled (cfg.reconnectDelay.getD 5000)])
      ∧ (handleClose cfg st).1.pendingRequests = st.pendingRequests
      ∧ (wsOpen (handleClose cfg st).1).1.pendingRequests = st.pendingRequests
      ∧ (wsOpen (handleClose cfg st).1).1.connected = true := by
  intro cfg st
  exact ⟨rfl, rfl, rfl, rfl⟩

/-- Concrete instantiation of `adapter_close_semantics_c3` at a state with
one pending call and the default backoff. -/
theorem adapter_close_semantics_c3_witness :
    handleClose cfgNone stPend =
      ({ connected := false, echoCounter := 1,
         pendingRequests := [(0, { action := "send_group_msg" })] },
       [AdapterEv.warnLogged, AdapterEv.reconnectScheduled 5000]) :=
  (adapter_close_semantics_c3 cfgNone stPend).1

/-! Plugin host (src/app/plugin/manager.js with loader.js and sandbox.js).
A plugin handler is an arbitrary function of the message context that either
returns a JavaScript value or throws; the manager only ever compares the
returned value against literal `true`.  Module loading and sandbox
adaptation perform I/O and are therefore parameters of `loadPlugin` (an
`Except` value standing for the outcome of
`loader.loadPluginModule` + `sandbox.initializePlugin`). -/

/-- The message context built by `MessageProcessor.createContext`
(src/app/bot/message.js), restricted to the fields the embedded components
read.  The `bot`, `messageId`, `rawMessage`, `messageArray`, `sender` and
`time` fields and the `reply` closure are omitted; `reply`'s routing is
modelled inside `process` below. -/
structure MsgCtx where
  userId : Nat
  groupId : Option Nat
  messageType : String
  message : String
  isPrivate : Bool
  isGroup : Bool
  isCommand : Bool
  command : Option String
  args : List String

/-- A JavaScript value as far as the dispatcher observes it: the literal
`true`, the literal `false`, `undefined`, or anything else. -/
inductive JsVal
  | vtrue
  | vfalse
  | vundefined
  | vother (tag : String)
deriving DecidableEq, Repr

/-- Outcome of invoking a plugin handler: a returned value or a thrown
exception (carrying its message). -/
inductive HOut
  | ret (v : JsVal)
  | throw (msg : String)

/-- Outcome of invoking a plugin's `onUnload` hook. -/
inductive UnloadOut
  | ok
  | throw (msg : String)

/-- A plugin instance as stored in the registry (`pluginInfo.instance`).
Each hook is optional because `handleMessage`/`unloadPlugin` guard every
call with a `typeof ... === 'function'` check; handlers are arbitrary
functions of the context. -/
structure PluginInstance where
  onMessage : Option (MsgCtx → HOut)
  onCommand : Option (MsgCtx → HOut)
  onUnload : Option UnloadOut

/-- One registry record (`this.plugins.set(pluginId, {...})`).  The
`module` and `loadedAt` fields of the source record are omitted: nothing in
the embedded operations reads them. -/
structure PluginRecord where
  id : String
  path : String
  inst : PluginInstance

/-- The plugin registry `this.plugins`: an insertion-ordered map from plugin
identity to record. -/
abbrev Registry : Type := List (String × PluginRecord)

/-- Character-list version of JS `String.prototype.endsWith` restricted to
pattern use in `getPluginId` (`replace(/\.js$/, '')`). -/
def listIsSfxOf (pat s : List Char) : Bool :=
  listIsPfxOf pat.reverse s.reverse

/-- Model of Node's `path.relative(base, file)` for the only case the
plugin manager exercises: `file` lies under the directory `base` (both the
glob in `PluginLoader.findPluginFiles` and the chokidar watcher only ever
produce such paths). -/
def pathRelative (base file : String) : String :=
  if jsStartsWith file (base ++ "/") then jsSlice file (base ++ "/").data.length
  else file

/-- Model of `relativePath.replace(/\\/g, '/')`. -/
def normSep (s : String) : String :=
  ⟨s.data.map fun c => if c = '\\' then '/' else c⟩

/-- Model of `().replace(/\.js$/, '')`: strip a final `.js` if present,
otherwise leave the string unchanged (in particular a final `.mjs` is NOT
stripped — `/\.js$/` does not match it). -/
def stripJsExt (s : String) : String :=
  if listIsSfxOf ".js".data s.data then ⟨s.data.take (s.data.length - 3)⟩ else s

/-- Translation of `PluginManager.getPluginId(filePath)`: the path relative
to the plugin root, separators normalized to `/`, with a trailing `.js`
removed. -/
def getPluginId (pluginDir filePath : String) : String :=
  stripJsExt (normSep (pathRelative pluginDir filePath))

example : getPluginId "/plugins" "/plugins/sub/foo.js" = "sub/foo" := by decide
example : getPluginId "/plugins" "/plugins/foo.mjs" = "foo.mjs" := by decide

/-- Observable actions of the plugin manager. -/
inductive MgrEv
  | unloadCalled (id : String)
  | errorLogged (id : String)
  | emitUnloaded (id : String)
  | registered (id : String)
  | emitLoaded (id : String)
  | loadErrorLogged (path : String)
deriving DecidableEq, Repr

/-- Translation of `PluginManager.unloadPlugin(pluginId)`: report `false`
when the identity is not loaded; otherwise invoke `onUnload` when it is a
function — if it throws, the surrounding `try/catch` logs the error and
returns `false` WITHOUT having removed the record — and on normal completion
delete the record, emit the unloaded notification and report `true`. -/
def unloadPlugin (reg : Registry) (pluginId : String) :
    Bool × Registry × List MgrEv :=
  match mapGet reg pluginId with
  | none => (false, reg, [])
  | some info =>
    match info.inst.onUnload with
    | some (UnloadOut.throw _) =>
      (false, reg, [MgrEv.unloadCalled pluginId, MgrEv.errorLogged pluginId])
    | some UnloadOut.ok =>
      (true, mapDelete reg pluginId,
       [MgrEv.unloadCalled pluginId, MgrEv.emitUnloaded pluginId])
    | none =>
      (true, mapDelete reg pluginId, [MgrEv.emitUnloaded pluginId])

/-- Translation of `PluginManager.loadPlugin(filePath)`: derive the
identity; if already registered, run `unloadPlugin` first; then load and
adapt the module (`outcome` stands for the result of that external step —
`Except.error` when `loadPluginModule`/`initializePlugin` throws, in which
case the surrounding `try/catch` logs and reports `false`); on success store
the new record with `Map.prototype.set` and emit the loaded notification. -/
def loadPlugin (pluginDir : String) (reg : Registry) (filePath : String)
    (outcome : Except String PluginInstance) :
    Bool × Registry × List MgrEv :=
  let pluginId := getPluginId pluginDir filePath
  let pre :=
    if (mapGet reg pluginId).isSome then
      let r := unloadPlugin reg pluginId
      (r.2.1, r.2.2)
    else (reg, ([] : List MgrEv))
  match outcome with
  | Except.error _ => (false, pre.1, pre.2 ++ [MgrEv.loadErrorLogged filePath])
  | Except.ok inst =>
    (true,
     mapSet pre.1 pluginId { id := pluginId, path := filePath, inst := inst },
     pre.2 ++ [MgrEv.registered pluginId, MgrEv.emitLoaded pluginId])

/-- Which handler of a plugin was invoked during dispatch. -/
inductive DKind
  | message
  | command
deriving DecidableEq, Repr

/-- Observable actions of one message-dispatch pass. -/
inductive DispatchEv
  | invoked (id : String) (k : DKind)
  | errorLogged (id : String)
deriving DecidableEq, Repr

/-- The plugin identity an event refers to. -/
def evId : DispatchEv → String
  | DispatchEv.invoked i _ => i
  | DispatchEv.errorLogged i => i

/-- The `onCommand` half of the loop body of `PluginManager.handleMessage`:
executed only when the context is a command and the plugin exposes an
`onCommand` function, still inside the same per-plugin `try/catch` (`acc`
holds the events of the `onMessage` half). -/
def commandPart (ctx : MsgCtx) (pluginId : String) (inst : PluginInstance)
    (acc : List DispatchEv) : Bool × List DispatchEv :=
  if ctx.isCommand then
    match inst.onCommand with
    | some g =>
      match g ctx with
      | HOut.throw _ =>
        (false, acc ++ [DispatchEv.invoked pluginId DKind.command,
                        DispatchEv.errorLogged pluginId])
      | HOut.ret v =>
        (v = JsVal.vtrue, acc ++ [DispatchEv.invoked pluginId DKind.command])
    | none => (false, acc)
  else (false, acc)

/-- The full loop body of `PluginManager.handleMessage` for one plugin: call
`onMessage` when present (a thrown exception is caught, logged with the
plugin identity, and ends the body with "not handled", skipping the
`onCommand` half); a literal `true` return short-circuits as handled;
otherwise fall through to the `onCommand` half. -/
def runPluginBody (ctx : MsgCtx) (pluginId : String) (inst : PluginInstance) :
    Bool × List DispatchEv :=
  match inst.onMessage with
  | some f =>
    match f ctx with
    | HOut.throw _ =>
      (false, [DispatchEv.invoked pluginId DKind.message,
               DispatchEv.errorLogged pluginId])
    | HOut.ret v =>
      if v = JsVal.vtrue then (true, [DispatchEv.invoked pluginId DKind.message])
      else commandPart ctx pluginId inst [DispatchEv.invoked pluginId DKind.message]
  | none => commandPart ctx pluginId inst []

/-- Translation of `PluginManager.handleMessage(context)`: iterate the
registry in insertion order, run the loop body for each plugin, and stop as
soon as one plugin reports handled (`result === true`); the overall result
is whether any plugin handled the message.  The function is total: a thrown
handler exception never propagates out of the dispatch. -/
def handleMessage (ctx : MsgCtx) : Registry → Bool × List DispatchEv
  | [] => (false, [])
  | p :: rest =>
    let r := runPluginBody ctx p.1 p.2.inst
    if r.1 then (true, r.2)
    else
      let r2 := handleMessage ctx rest
      (r2.1, r.2 ++ r2.2)

theorem commandPart_events (ctx : MsgCtx) (pluginId : String)
    (inst : PluginInstance) (acc : List DispatchEv) :
    ∃ extra, (commandPart ctx pluginId inst acc).2 = acc ++ extra
      ∧ ∀ e ∈ extra, evId e = pluginId := by
  by_cases hc : ctx.isCommand
  · cases hg : inst.onCommand with
    | none => exact ⟨[], by simp [commandPart, hc, hg], by simp⟩
    | some g =>
      cases hr : g ctx with
      | throw m =>
        exact ⟨[DispatchEv.invoked pluginId DKind.command,
                DispatchEv.errorLogged pluginId],
               by simp [commandPart, hc, hg, hr],
               by simp [evId]⟩
      | ret v =>
        exact ⟨[DispatchEv.invoked pluginId DKind.command],
               by simp [commandPart, hc, hg, hr],
               by simp [evId]⟩
  · exact ⟨[], by simp [commandPart, hc], by simp⟩

theorem runPluginBody_evId (ctx : MsgCtx) (pluginId : String)
    (inst : PluginInstance) :
    ∀ e ∈ (runPluginBody ctx pluginId inst).2, evId e = pluginId := by
  cases hm : inst.onMessage with
  | none =>
    rcases commandPart_events ctx pluginId inst [] with ⟨extra, heq, hids⟩
    rw [show (runPluginBody ctx pluginId inst).2 =
        (commandPart ctx pluginId inst []).2 by simp [runPluginBody, hm]]
    rw [heq]
    simpa using hids
  | some f =>
    cases hr : f ctx with
    | throw m =>
      rw [show (runPluginBody ctx pluginId inst).2 =
          [DispatchEv.invoked pluginId DKind.message,
           DispatchEv.errorLogged pluginId] by simp [runPluginBody, hm, hr]]
      simp [evId]
    | ret v =>
      by_cases hv : v = JsVal.vtrue
      · rw [show (runPluginBody ctx pluginId inst).2 =
            [DispatchEv.invoked pluginId DKind.message] by
              simp [runPluginBody, hm, hr, hv]]
        simp [evId]
      · rcases commandPart_events ctx pluginId inst
          [DispatchEv.invoked pluginId DKind.message] with ⟨extra, heq, hids⟩
        rw [show (runPluginBody ctx pluginId inst).2 =
            (commandPart ctx pluginId inst
              [DispatchEv.invoked pluginId DKind.message]).2 by
              simp [runPluginBody, hm, hr, hv]]
        rw [heq]
        intro e he
        rcases List.mem_append.mp he with he | he
        · simp only [List.mem_singleton] at he
          subst he
          rfl
        · exact hids e he

theorem runPluginBody_invoked (ctx : MsgCtx) (pluginId : String)
    (inst : PluginInstance) (h : inst.onMessage.isSome = true) :
    DispatchEv.invoked pluginId DKind.message ∈
      (runPluginBody ctx pluginId inst).2 := by
  cases hm : inst.onMessage with
  | none => rw [hm] at h; simp at h
  | some f =>
    cases hr : f ctx with
    | throw m =>
      rw [show (runPluginBody ctx pluginId inst).2 =
          [DispatchEv.invoked pluginId DKind.message,
           DispatchEv.errorLogged pluginId] by simp [runPluginBody, hm, hr]]
      simp
    | ret v =>
      by_cases hv : v = JsVal.vtrue
      · rw [show (runPluginBody ctx pluginId inst).2 =
            [DispatchEv.invoked pluginId DKind.message] by
              simp [runPluginBody, hm, hr, hv]]
        simp
      · rcases commandPart_events ctx pluginId inst
          [DispatchEv.invoked pluginId DKind.message] with ⟨extra, heq, _⟩
        rw [show (runPluginBody ctx pluginId inst).2 =
            (commandPart ctx pluginId inst
              [DispatchEv.invoked pluginId DKind.message]).2 by
              simp [runPluginBody, hm, hr, hv]]
        rw [heq]
        simp

theorem handleMessage_cons_not_handled (ctx : MsgCtx)
    (p : String × PluginRecord) (rest : Registry)
    (h : (runPluginBody ctx p.1 p.2.inst).1 = false) :
    handleMessage ctx (p :: rest) =
      ((handleMessage ctx rest).1,
       (runPluginBody ctx p.1 p.2.inst).2 ++ (handleMessage ctx rest).2) := by
  simp [handleMessage, h]

theorem handleMessage_cons_pair (ctx : MsgCtx) (pluginId : String)
    (rec : PluginRecord) (rest : Registry)
    (h : (runPluginBody ctx pluginId rec.inst).1 = false) :
    handleMessage ctx ((pluginId, rec) :: rest) =
      ((handleMessage ctx rest).1,
       (runPluginBody ctx pluginId rec.inst).2 ++ (handleMessage ctx rest).2) := by
  simp [handleMessage, h]

/-- C1: per-plugin failure isolation in `PluginManager.handleMessage`.
First conjunct: a plugin whose `onMessage` throws contributes exactly its
invocation plus an error-log entry naming it, counts as "not handled", and
dispatch over the remaining plugins proceeds exactly as if that plugin were
absent — in particular `handleMessage` is a total function, so the exception
never propagates out of the dispatch.  Second conjunct: the same when the
plugin's `onCommand` throws (after its `onMessage` returned a non-`true`
value on a command context).  Third conjunct: in a pass where no plugin
handles the message, every registered plugin exposing an `onMessage`
function really is invoked. -/
theorem dispatch_error_isolation_c1 :
    ∀ ctx : MsgCtx,
      (∀ (pluginId : String) (rec : PluginRecord) (rest : Registry)
          (f : MsgCtx → HOut) (e : String),
        rec.inst.onMessage = some f → f ctx = HOut.throw e →
        handleMessage ctx ((pluginId, rec) :: rest) =
          ((handleMessage ctx rest).1,
           DispatchEv.invoked pluginId DKind.message ::
             DispatchEv.errorLogged pluginId :: (handleMessage ctx rest).2))
      ∧ (∀ (pluginId : String) (rec : PluginRecord) (rest : Registry)
          (f g : MsgCtx → HOut) (v : JsVal) (e : String),
        rec.inst.onMessage = some f → f ctx = HOut.ret v → v ≠ JsVal.vtrue →
        ctx.isCommand = true → rec.inst.onCommand = some g →
        g ctx = HOut.throw e →
        handleMessage ctx ((pluginId, rec) :: rest) =
          ((handleMessage ctx rest).1,
           DispatchEv.invoked pluginId DKind.message ::
             DispatchEv.invoked pluginId DKind.command ::
             DispatchEv.errorLogged pluginId :: (handleMessage ctx rest).2))
      ∧ (∀ reg : Registry, (handleMessage ctx reg).1 = false →
          ∀ p ∈ reg, p.2.inst.onMessage.isSome = true →
            DispatchEv.invoked p.1 DKind.message ∈ (handleMessage ctx reg).2) := by
  intro ctx
  refine ⟨?_, ?_, ?_⟩
  · intro pluginId rec rest f e hm hf
    have hbody : runPluginBody ctx pluginId rec.inst =
        (false, [DispatchEv.invoked pluginId DKind.message,
                 DispatchEv.errorLogged pluginId]) := by
      simp [runPluginBody, hm, hf]
    have heq := handleMessage_cons_pair ctx pluginId rec rest (by rw [hbody])
    rw [heq, hbody]
    rfl
  · intro pluginId rec rest f g v e hm hf hv hc hcmd hg
    have hbody : runPluginBody ctx pluginId rec.inst =
        (false, [DispatchEv.invoked pluginId DKind.message,
                 DispatchEv.invoked pluginId DKind.command,
                 DispatchEv.errorLogged pluginId]) := by
      simp [runPluginBody, hm, hf, hv, commandPart, hc, hcmd, hg]
    have heq := handleMessage_cons_pair ctx pluginId rec rest (by rw [hbody])
    rw [heq, hbody]
    rfl
  · intro reg
    induction reg with
    | nil =>
      intro _ p hp
      simp at hp
    | cons q rest ih =>
      intro h p hp hsome
      by_cases hq : (runPluginBody ctx q.1 q.2.inst).1 = false
      · have heq := handleMessage_cons_not_handled ctx q rest hq
        have hrest : (handleMessage ctx rest).1 = false := by
          rw [heq] at h
          exact h
        rw [heq]
        rcases List.mem_cons.mp hp with hp | hp
        · subst hp
          exact List.mem_append_left _ (runPluginBody_invoked ctx p.1 p.2.inst hsome)
        · exact List.mem_append_right _ (ih hrest p hp hsome)
      · exfalso
        have htrue : (runPluginBody ctx q.1 q.2.inst).1 = true := by
          revert hq
          cases (runPluginBody ctx q.1 q.2.inst).1 <;> simp
        have : (handleMessage ctx (q :: rest)).1 = true := by
          simp [handleMessage, htrue]
        rw [h] at this
        exact Bool.false_ne_true this

/-- A sample non-command private-message context. -/
def ctxPlain : MsgCtx :=
  { userId := 2, groupId := none, messageType := "private", message := "hi",
    isPrivate := true, isGroup := false, isCommand := false, command := none,
    args := [] }

/-- A plugin whose `onMessage` always throws. -/
def recThrow : PluginRecord :=
  { id := "a", path := "/plugins/a.js",
    inst := { onMessage := some fun _ => HOut.throw "boom",
              onCommand := none, onUnload := some UnloadOut.ok } }

/-- A plugin whose `onMessage` always returns literal `true`. -/
def recHandle : PluginRecord :=
  { id := "b", path := "/plugins/b.js",
    inst := { onMessage := some fun _ => HOut.ret JsVal.vtrue,
              onCommand := none, onUnload := some UnloadOut.ok } }

/-- A plugin whose `onMessage` always returns literal `false`. -/
def recFalse : PluginRecord :=
  { id := "a", path := "/plugins/a.js",
    inst := { onMessage := some fun _ => HOut.ret JsVal.vfalse,
              onCommand := none, onUnload := some UnloadOut.ok } }

/-- A plugin exposing no handlers at all. -/
def recInert : PluginRecord :=
  { id := "c", path := "/plugins/c.js",
    inst := { onMessage := none, onCommand := none, onUnload := none } }

/-- Concrete instantiation of `dispatch_error_isolation_c1`: a throwing
plugin "a" followed by a handling plugin "b" yields a logged error for "a"
and a normal handled dispatch of "b". -/
theorem dispatch_error_isolation_c1_witness :
    handleMessage ctxPlain [("a", recThrow), ("b", recHandle)] =
      (true, [DispatchEv.invoked "a" DKind.message, DispatchEv.errorLogged "a",
              DispatchEv.invoked "b" DKind.message]) := by
  have h := (dispatch_error_isolation_c1 ctxPlain).1 "a" recThrow
    [("b", recHandle)] (fun _ => HOut.throw "boom") "boom" rfl rfl
  rw [h]
  rfl

/-- C7: dispatch order and short-circuiting in
`PluginManager.handleMessage`.  With plugins A, B, C registered in that
order, if A does not handle the message and B's `onMessage` returns literal
`true`, then the dispatch reports handled, its trace is exactly A's events
followed by B's single invocation (so A ran before B), B's `onCommand` and
everything of C are never invoked, and C's identity never appears in the
trace.  The last conjunct shows that ANY plugin whose loop body reports
non-`true` (whatever value its handlers returned) does not short-circuit:
dispatch continues over the remaining plugins unchanged. -/
theorem dispatch_order_c7 :
    ∀ (ctx : MsgCtx) (A B C : String × PluginRecord) (f : MsgCtx → HOut),
      (runPluginBody ctx A.1 A.2.inst).1 = false →
      B.2.inst.onMessage = some f →
      f ctx = HOut.ret JsVal.vtrue →
      (handleMessage ctx [A, B, C] =
        (true, (runPluginBody ctx A.1 A.2.inst).2 ++
               [DispatchEv.invoked B.1 DKind.message]))
      ∧ (A.2.inst.onMessage.isSome = true →
          DispatchEv.invoked A.1 DKind.message ∈ (handleMessage ctx [A, B, C]).2)
      ∧ (C.1 ≠ A.1 → C.1 ≠ B.1 →
          ∀ k, DispatchEv.invoked C.1 k ∉ (handleMessage ctx [A, B, C]).2)
      ∧ (∀ (p : String × PluginRecord) (rest : Registry),
          (runPluginBody ctx p.1 p.2.inst).1 = false →
          handleMessage ctx (p :: rest) =
            ((handleMessage ctx rest).1,
             (runPluginBody ctx p.1 p.2.inst).2 ++ (handleMessage ctx rest).2)) := by
  intro ctx A B C f hA hm hf
  have hB : runPluginBody ctx B.1 B.2.inst =
      (true, [DispatchEv.invoked B.1 DKind.message]) := by
    simp [runPluginBody, hm, hf]
  have hmain : handleMessage ctx [A, B, C] =
      (true, (runPluginBody ctx A.1 A.2.inst).2 ++
             [DispatchEv.invoked B.1 DKind.message]) := by
    have h1 := handleMessage_cons_not_handled ctx A [B, C] hA
    have h2 : handleMessage ctx [B, C] =
        (true, [DispatchEv.invoked B.1 DKind.message]) := by
      simp [handleMessage, hB]
    rw [h1, h2]
  refine ⟨hmain, ?_, ?_, ?_⟩
  · intro hsome
    rw [hmain]
    exact List.mem_append_left _ (runPluginBody_invoked ctx A.1 A.2.inst hsome)
  · intro hCA hCB k hmem
    rw [hmain] at hmem
    rcases List.mem_append.mp hmem with hmem | hmem
    · exact hCA (runPluginBody_evId ctx A.1 A.2.inst _ hmem)
    · simp only [List.mem_singleton] at hmem
      injection hmem with h1 h2
      exact hCB h1
  · intro p rest hp
    exact handleMessage_cons_not_handled ctx p rest hp

/-- Concrete instantiation of `dispatch_order_c7`: "a" returns `false`, "b"
returns literal `true`, "c" is never reached; the trace shows "a" then "b"
and nothing of "c". -/
theorem dispatch_order_c7_witness :
    handleMessage ctxPlain [("a", recFalse), ("b", recHandle), ("c", recInert)] =
      (true, [DispatchEv.invoked "a" DKind.message,
              DispatchEv.invoked "b" DKind.message]) := by
  have h := (dispatch_order_c7 ctxPlain ("a", recFalse) ("b", recHandle)
    ("c", recInert) (fun _ => HOut.ret JsVal.vtrue) rfl rfl rfl).1
  rw [h]
  rfl

/-- A plugin whose `onUnload` hook throws. -/
def recUnloadThrow : PluginRecord :=
  { id := "p", path := "/plugins/p.js",
    inst := { onMessage := none, onCommand := none,
              onUnload := some (UnloadOut.throw "boom") } }

/-- C4 counterexample: the claim says that whether or not `onUnload` throws,
`unload` removes the record from the registry and reports success.  In the
source the `try/catch` of `unloadPlugin` wraps the `plugins.delete` call as
well, so when `onUnload` throws the catch block returns `false` before the
record is ever removed: on a registry holding one plugin "p" whose
`onUnload` throws, `unloadPlugin` reports `false` and "p" is still
registered afterwards. -/
theorem unload_throw_c4_counterexample :
    (unloadPlugin [("p", recUnloadThrow)] "p").1 = false
    ∧ (mapGet (unloadPlugin [("p", recUnloadThrow)] "p").2.1 "p").isSome = true :=
  ⟨rfl, rfl⟩

/-- C4 (amended): `unloadPlugin` on a not-loaded identity reports `false`
and changes nothing.  On a loaded identity it invokes `onUnload` when
present; if `onUnload` completes normally (or is absent) the record is
removed — other records untouched — the unloaded notification is emitted and
the unload reports `true`; if `onUnload` throws, the exception is caught and
logged (never propagated), but the record is NOT removed and the unload
reports `false`. -/
theorem unload_semantics_c4 :
    ∀ (reg : Registry) (pluginId : String),
      (mapGet reg pluginId = none → unloadPlugin reg pluginId = (false, reg, []))
      ∧ (∀ info : PluginRecord, mapGet reg pluginId = some info →
          (info.inst.onUnload = some UnloadOut.ok ∨ info.inst.onUnload = none →
            (unloadPlugin reg pluginId).1 = true
            ∧ (unloadPlugin reg pluginId).2.1 = mapDelete reg pluginId
            ∧ mapGet (unloadPlugin reg pluginId).2.1 pluginId = none
            ∧ (∀ k, k ≠ pluginId →
                mapGet (unloadPlugin reg pluginId).2.1 k = mapGet reg k)
            ∧ MgrEv.emitUnloaded pluginId ∈ (unloadPlugin reg pluginId).2.2)
          ∧ (∀ m, info.inst.onUnload = some (UnloadOut.throw m) →
            (unloadPlugin reg pluginId).1 = false
            ∧ (unloadPlugin reg pluginId).2.1 = reg
            ∧ (unloadPlugin reg pluginId).2.2 =
                [MgrEv.unloadCalled pluginId, MgrEv.errorLogged pluginId])) := by
  intro reg pluginId
  constructor
  · intro h
    simp [unloadPlugin, h]
  · intro info hinfo
    constructor
    · intro hok
      have hresult : (unloadPlugin reg pluginId).2.1 = mapDelete reg pluginId ∧
          (unloadPlugin reg pluginId).1 = true ∧
          MgrEv.emitUnloaded pluginId ∈ (unloadPlugin reg pluginId).2.2 := by
        rcases hok with hok | hok <;> simp [unloadPlugin, hinfo, hok]
      refine ⟨hresult.2.1, hresult.1, ?_, ?_, hresult.2.2⟩
      · rw [hresult.1]
        exact mapGet_mapDelete_self reg pluginId
      · intro k hk
        rw [hresult.1]
        exact mapGet_mapDelete_ne reg pluginId k hk
    · intro m hthrow
      simp [unloadPlugin, hinfo, hthrow]

/-- Concrete instantiation of `unload_semantics_c4`: unloading from the
empty registry reports `false` with no changes; unloading "b" with a clean
`onUnload` reports `true`; unloading "p" whose `onUnload` throws leaves the
registry unchanged. -/
theorem unload_semantics_c4_witness :
    unloadPlugin [] "nope" = (false, [], [])
    ∧ (unloadPlugin [("b", recHandle)] "b").1 = true
    ∧ (unloadPlugin [("p", recUnloadThrow)] "p").2.1 = [("p", recUnloadThrow)] := by
  refine ⟨?_, ?_, ?_⟩
  · exact (unload_semantics_c4 [] "nope").1 rfl
  · exact (((unload_semantics_c4 [("b", recHandle)] "b").2 recHandle rfl).1
      (Or.inl rfl)).1
  · exact (((unload_semantics_c4 [("p", recUnloadThrow)] "p").2 recUnloadThrow
      rfl).2 "boom" rfl).2.1

theorem keysNodup_unloadPlugin (reg : Registry) (pluginId : String)
    (h : keysNodup reg) : keysNodup (unloadPlugin reg pluginId).2.1 := by
  cases hg : mapGet reg pluginId with
  | none => simpa [unloadPlugin, hg] using h
  | some info =>
    cases hu : info.inst.onUnload with
    | none =>
      simpa [unloadPlugin, hg, hu] using keysNodup_mapDelete reg pluginId h
    | some u =>
      cases u with
      | ok =>
        simpa [unloadPlugin, hg, hu] using keysNodup_mapDelete reg pluginId h
      | throw m => simpa [unloadPlugin, hg, hu] using h

theorem unloadPlugin_events (reg : Registry) (pluginId : String)
    (info : PluginRecord) (h : mapGet reg pluginId = some info) :
    (info.inst.onUnload ≠ none →
      MgrEv.unloadCalled pluginId ∈ (unloadPlugin reg pluginId).2.2)
    ∧ MgrEv.registered pluginId ∉ (unloadPlugin reg pluginId).2.2 := by
  cases hu : info.inst.onUnload with
  | none => simp [unloadPlugin, h, hu]
  | some u =>
    cases u with
    | ok => simp [unloadPlugin, h, hu]
    | throw m => simp [unloadPlugin, h, hu]

/-- C8: registry uniqueness and the hot-reload contract of
`PluginManager.loadPlugin`.  If the registry keys are unique then they stay
unique after any `loadPlugin` and after any `unloadPlugin` (at most one
record per identity at every point — `Map.prototype.set` replaces rather
than duplicates, so even when a throwing `onUnload` left the old record in
place, registration overwrites it and old and new are never registered
together).  Moreover, when the derived identity is already registered, the
emitted event trace factors as the complete `unloadPlugin` pass followed by
the load events: the old record's `onUnload` is invoked inside that prefix,
registration of the new instance never occurs in the prefix, and on a
successful load the new record — and only it — is registered under the
identity afterwards. -/
theorem registry_hot_reload_c8 :
    ∀ (pluginDir filePath : String) (reg : Registry)
      (outcome : Except String PluginInstance),
      keysNodup reg →
      keysNodup (loadPlugin pluginDir reg filePath outcome).2.1
      ∧ keysNodup (unloadPlugin reg (getPluginId pluginDir filePath)).2.1
      ∧ (∀ oldRec : PluginRecord,
          mapGet reg (getPluginId pluginDir filePath) = some oldRec →
          ∃ pre post,
            (loadPlugin pluginDir reg filePath outcome).2.2 = pre ++ post
            ∧ pre = (unloadPlugin reg (getPluginId pluginDir filePath)).2.2
            ∧ (oldRec.inst.onUnload ≠ none →
                MgrEv.unloadCalled (getPluginId pluginDir filePath) ∈ pre)
            ∧ MgrEv.registered (getPluginId pluginDir filePath) ∉ pre
            ∧ (∀ newInst, outcome = Except.ok newInst →
                MgrEv.registered (getPluginId pluginDir filePath) ∈ post
                ∧ mapGet (loadPlugin pluginDir reg filePath outcome).2.1
                    (getPluginId pluginDir filePath) =
                  some { id := getPluginId pluginDir filePath,
                         path := filePath, inst := newInst })) := by
  intro pluginDir filePath reg outcome hnd
  have hund : keysNodup (unloadPlugin reg (getPluginId pluginDir filePath)).2.1 :=
    keysNodup_unloadPlugin reg _ hnd
  refine ⟨?_, hund, ?_⟩
  · by_cases hs : (mapGet reg (getPluginId pluginDir filePath)).isSome = true
    · cases outcome with
      | error m => simpa [loadPlugin, hs] using hund
      | ok inst =>
        simpa [loadPlugin, hs] using
          keysNodup_mapSet (unloadPlugin reg (getPluginId pluginDir filePath)).2.1
            (getPluginId pluginDir filePath)
            { id := getPluginId pluginDir filePath, path := filePath, inst := inst }
            hund
    · cases outcome with
      | error m => simpa [loadPlugin, hs] using hnd
      | ok inst =>
        simpa [loadPlugin, hs] using
          keysNodup_mapSet reg (getPluginId pluginDir filePath)
            { id := getPluginId pluginDir filePath, path := filePath, inst := inst }
            hnd
  · intro oldRec hold
    have hs : (mapGet reg (getPluginId pluginDir filePath)).isSome = true := by
      rw [hold]
      rfl
    have hev := unloadPlugin_events reg (getPluginId pluginDir filePath) oldRec hold
    cases outcome with
    | error m =>
      refine ⟨(unloadPlugin reg (getPluginId pluginDir filePath)).2.2,
              [MgrEv.loadErrorLogged filePath], ?_, rfl, hev.1, hev.2, ?_⟩
      · simp [loadPlugin, hs]
      · intro newInst hcon
        cases hcon
    | ok inst =>
      refine ⟨(unloadPlugin reg (getPluginId pluginDir filePath)).2.2,
              [MgrEv.registered (getPluginId pluginDir filePath),
               MgrEv.emitLoaded (getPluginId pluginDir filePath)],
              ?_, rfl, hev.1, hev.2, ?_⟩
      · simp [loadPlugin, hs]
      · intro newInst hcon
        injection hcon with hinst
        subst hinst
        refine ⟨by simp, ?_⟩
        have hreg : (loadPlugin pluginDir reg filePath (Except.ok inst)).2.1 =
            mapSet (unloadPlugin reg (getPluginId pluginDir filePath)).2.1
              (getPluginId pluginDir filePath)
              { id := getPluginId pluginDir filePath, path := filePath,
                inst := inst } := by
          simp [loadPlugin, hs]
        rw [hreg]
        exact mapGet_mapSet_self _ _ _

/-- Concrete instantiation of `registry_hot_reload_c8`: reloading
"/plugins/a.js" over a registry already holding identity "a" keeps the keys
unique and afterwards maps "a" to exactly the newly adapted record. -/
theorem registry_hot_reload_c8_witness :
    keysNodup (loadPlugin "/plugins" [("a", recFalse)] "/plugins/a.js"
      (Except.ok recHandle.inst)).2.1
    ∧ mapGet (loadPlugin "/plugins" [("a", recFalse)] "/plugins/a.js"
        (Except.ok recHandle.inst)).2.1 (getPluginId "/plugins" "/plugins/a.js") =
      some { id := getPluginId "/plugins" "/plugins/a.js",
             path := "/plugins/a.js", inst := recHandle.inst } := by
  have h := registry_hot_reload_c8 "/plugins" "/plugins/a.js" [("a", recFalse)]
    (Except.ok recHandle.inst) (by unfold keysNodup; decide)
  obtain ⟨pre, post, _, _, _, _, hok⟩ := h.2.2 recFalse rfl
  exact ⟨h.1, (hok recHandle.inst rfl).2⟩

theorem string_data_append (a b : String) : (a ++ b).data = a.data ++ b.data := by
  cases a
  cases b
  rfl

theorem string_mk_data (s : String) : (⟨s.data⟩ : String) = s := by
  cases s
  rfl

theorem listIsPfxOf_append (l m : List Char) : listIsPfxOf l (l ++ m) = true := by
  induction l with
  | nil => rfl
  | cons c cs ih => simp [listIsPfxOf, ih]

theorem jsSlice_append (x y : String) : jsSlice (x ++ y) x.data.length = y := by
  unfold jsSlice
  rw [string_data_append, List.drop_left]

/-- The identity derivation factors through the path relative to the plugin
root: for any file `dir ++ "/" ++ rel` under the root `dir`, the identity is
the normalized relative path with a trailing `.js` (and only `.js`)
stripped. -/
theorem getPluginId_append (dir rel : String) :
    getPluginId dir (dir ++ "/" ++ rel) = stripJsExt (normSep rel) := by
  unfold getPluginId pathRelative
  have h1 : jsStartsWith (dir ++ "/" ++ rel) (dir ++ "/") = true := by
    unfold jsStartsWith
    rw [string_data_append (dir ++ "/") rel]
    exact listIsPfxOf_append _ _
  rw [if_pos h1, jsSlice_append]

/-- A string ending in `.mjs` does not end in `.js`, so `stripJsExt` leaves
it unchanged (the regex `/\.js$/` does not match `.mjs`). -/
theorem stripJsExt_mjs (s : String) (h : listIsSfxOf ".mjs".data s.data = true) :
    stripJsExt s = s := by
  unfold stripJsExt
  suffices hsfx : listIsSfxOf ".js".data s.data = false by
    simp [hsfx]
  unfold listIsSfxOf at h ⊢
  have hm : (".mjs".data).reverse = ['s', 'j', 'm', '.'] := by decide
  have hj : (".js".data).reverse = ['s', 'j', '.'] := by decide
  rw [hm] at h
  rw [hj]
  rcases hr : s.data.reverse with _ | ⟨a, _ | ⟨b, _ | ⟨c, r⟩⟩⟩ <;> rw [hr] at h
  · simp [listIsPfxOf] at h
  · simp [listIsPfxOf] at h
  · simp [listIsPfxOf] at h
  · simp [listIsPfxOf] at h
    obtain ⟨h1, h2, h3, _⟩ := h
    subst h1
    subst h2
    subst h3
    simp [listIsPfxOf]

/-- C9 counterexample: the claim says the source extension is stripped for
every discoverable plugin file, `.mjs` included.  `getPluginId` only
replaces `/\.js$/`, so for the discoverable file `/plugins/foo.mjs` the
identity keeps its extension: it is "foo.mjs", not "foo". -/
theorem plugin_identity_mjs_c9_counterexample :
    getPluginId "/plugins" "/plugins/foo.mjs" = "foo.mjs"
    ∧ getPluginId "/plugins" "/plugins/foo.mjs" ≠ "foo" := by
  decide

/-- C9 (amended): for every file under the plugin root, the registry
identity is the path relative to the root with separators normalized to `/`
and a trailing `.js` stripped; a `.mjs` file (which the loader enumerates
and the watcher accepts) keeps its `.mjs` extension in the identity.  The
derivation is a pure function of the path, so repeated loads of the same
file always produce the same identity. -/
theorem plugin_identity_c9 :
    (∀ dir rel : String,
      getPluginId dir (dir ++ "/" ++ rel) = stripJsExt (normSep rel))
    ∧ (∀ dir rel : String, listIsSfxOf ".mjs".data (normSep rel).data = true →
        getPluginId dir (dir ++ "/" ++ rel) = normSep rel)
    ∧ getPluginId "/plugins" "/plugins/sub/foo.js" = "sub/foo"
    ∧ getPluginId "/plugins" "/plugins/a\\b.js" = "a/b" := by
  refine ⟨getPluginId_append, ?_, by decide, by decide⟩
  intro dir rel h
  rw [getPluginId_append dir rel]
  exact stripJsExt_mjs (normSep rel) h

/-- Concrete instantiation of `plugin_identity_c9` at the `.mjs` file
"foo.mjs": the identity is the unstripped normalized relative path. -/
theorem plugin_identity_c9_witness :
    getPluginId "/plugins" ("/plugins" ++ "/" ++ "foo.mjs") = normSep "foo.mjs" :=
  plugin_identity_c9.2.1 "/plugins" "foo.mjs" (by decide)

/-- C2 (code bug): half of the claimed round-trip holds —
`"#echo hello world"` with prefix set `["#", ""]` parses to command "echo"
with arguments ["hello", "world"].  The other half does not: the prefix scan
does match `"hello"` against the empty-string prefix (third conjunct), and
the shipped configuration lists `''` in `commandPrefix` precisely so that
any text is a candidate command, but the source's guard
`if (!prefix) return null` treats the matched empty string as falsy exactly
like the no-match `null`, so `parseCommand` returns null for `"hello"`
(second conjunct) and the configured empty-string prefix is dead code. -/
theorem parseCommand_empty_prefix_c2_bug :
    parseCommand ["#", ""] "#echo hello world" =
      some { command := "echo", args := ["hello", "world"], pfx := "#" }
    ∧ parseCommand ["#", ""] "hello" = none
    ∧ findPfx ["#", ""] "hello" = some "" := by
  decide

/-! Message processor (src/app/bot/message.js): context construction,
command classification and the unknown-command fallback reply. -/

/-- One segment of a structured message array, as read by
`MessageProcessor.extractText`. -/
inductive MsgSeg
  | text (t : String)
  | image
  | face (id : String)
  | other (ty : String)
deriving DecidableEq, Repr

/-- The text rendering of one segment, following `extractText`'s cases. -/
def segText : MsgSeg → String
  | MsgSeg.text t => t
  | MsgSeg.image => "[图片]"
  | MsgSeg.face i => "[表情:" ++ i ++ "]"
  | MsgSeg.other ty => "[" ++ ty ++ "]"

/-- The `message` field of an inbound event: either already a string or an
array of segments. -/
inductive MsgBody
  | str (s : String)
  | arr (l : List MsgSeg)
deriving DecidableEq, Repr

/-- Translation of `MessageProcessor.extractText(message)`. -/
def extractText : MsgBody → String
  | MsgBody.str s => s
  | MsgBody.arr l => String.join (l.map segText)

/-- An inbound message event, restricted to the fields the processor reads
(`message_id`, `raw_message`, `sender` and `time` are carried through to the
context unchanged and are omitted here).  `group_id` is a plain field
because the source reads `message.group_id` directly in the reply closure
regardless of the message type. -/
structure InMsg where
  message_type : String
  user_id : Nat
  group_id : Nat
  message : MsgBody
deriving DecidableEq, Repr

/-- Translation of `MessageProcessor.createContext(message)` restricted to
the modelled fields: channel classification, extracted text, and the
not-yet-filled command fields. -/
def createContext (m : InMsg) : MsgCtx :=
  { userId := m.user_id,
    groupId := if m.message_type == "group" then some m.group_id else none,
    messageType := m.message_type,
    message := extractText m.message,
    isPrivate := m.message_type == "private",
    isGroup := m.message_type == "group",
    isCommand := false, command := none, args := [] }

/-- The context as the plugins see it: `process` fills in `command`, `args`
and `isCommand` exactly when `parseCommand` recognizes the text. -/
def buildContext (prefixes : List String) (m : InMsg) : MsgCtx :=
  let ctx := createContext m
  match parseCommand prefixes ctx.message with
  | some ci =>
    { ctx with command := some ci.command, args := ci.args, isCommand := true }
  | none => ctx

/-- The unknown-command notice text built by
`MessageProcessor.replyUnknownCommand`. -/
def unknownCmdMsg (cmd : String) : String :=
  "未知命令: " ++ cmd ++ "\n请输入 \"#帮助\" 查看可用命令"

/-- Observable actions of one `MessageProcessor.process` run. -/
inductive ProcEv
  | emitMessage
  | emitCommand
  | dispatched (handled : Bool)
  | sentPrivate (userId : Nat) (content : String)
  | sentGroup (groupId : Nat) (content : String)
  | replyErrorLogged
deriving DecidableEq, Repr

/-- Translation of `MessageProcessor.replyUnknownCommand(context)`: one
reply through the context's reply closure — `sendPrivateMsg(user_id, ...)`
for a private message, otherwise `sendGroupMsg(group_id, ...)` — inside a
`try/catch` that logs a failed reply instead of rethrowing.  `replyOk`
stands for whether the underlying send succeeds. -/
def replyUnknownCommand (ctx : MsgCtx) (m : InMsg) (replyOk : Bool) :
    List ProcEv :=
  let content := unknownCmdMsg (ctx.command.getD "null")
  let sendEv :=
    if ctx.isPrivate then ProcEv.sentPrivate m.user_id content
    else ProcEv.sentGroup m.group_id content
  if replyOk then [sendEv] else [sendEv, ProcEv.replyErrorLogged]

/-- Translation of `MessageProcessor.process(message)`: build the context,
emit the global message event, classify the command (emitting the command
event when recognized), hand the context to the plugin manager, and — only
when the context is a command no plugin handled — send the unknown-command
notice. -/
def process (prefixes : List String) (reg : Registry) (m : InMsg)
    (replyOk : Bool) : List ProcEv :=
  let ctx := buildContext prefixes m
  let cmdEvs := if ctx.isCommand then [ProcEv.emitCommand] else []
  let handled := (handleMessage ctx reg).1
  let replyEvs :=
    if !handled && ctx.isCommand then replyUnknownCommand ctx m replyOk else []
  ProcEv.emitMessage :: (cmdEvs ++ ProcEv.dispatched handled :: replyEvs)

/-- How many replies a `process` run sent (or attempted to send). -/
def countReplies (evs : List ProcEv) : Nat :=
  (evs.filter fun e =>
    match e with
    | ProcEv.sentPrivate _ _ => true
    | ProcEv.sentGroup _ _ => true
    | _ => false).length

theorem countReplies_replyUnknownCommand (ctx : MsgCtx) (m : InMsg)
    (replyOk : Bool) :
    countReplies (replyUnknownCommand ctx m replyOk) = 1 := by
  cases replyOk <;> by_cases hp : ctx.isPrivate <;>
    simp [replyUnknownCommand, countReplies, hp]

theorem countReplies_process (prefixes : List String) (reg : Registry)
    (m : InMsg) (replyOk : Bool) :
    countReplies (process prefixes reg m replyOk) =
      (if !(handleMessage (buildContext prefixes m) reg).1
          && (buildContext prefixes m).isCommand
       then countReplies (replyUnknownCommand (buildContext prefixes m) m replyOk)
       else 0) := by
  by_cases hcmd : (buildContext prefixes m).isCommand <;>
    by_cases hh : (handleMessage (buildContext prefixes m) reg).1 <;>
      simp [process, countReplies, hcmd, hh]

/-- C10: the unknown-command fallback of `MessageProcessor.process`.  When
the context was classified as a command and no plugin handled it, exactly
one reply (the unknown-command notice) is sent, routed to the originating
channel (private to the sender's user id, otherwise to the group id of the
triggering message).  When the message was not classified as a command, or
some plugin handled it, no such reply is sent.  A failing reply is
swallowed: the only difference between a run whose reply fails and one
whose reply succeeds is one logged error — `process` still returns
normally. -/
theorem unknown_command_reply_c10 :
    ∀ (prefixes : List String) (reg : Registry) (m : InMsg) (replyOk : Bool),
      ((buildContext prefixes m).isCommand = true →
        (handleMessage (buildContext prefixes m) reg).1 = false →
        countReplies (process prefixes reg m replyOk) = 1
        ∧ ((buildContext prefixes m).isPrivate = true →
            ProcEv.sentPrivate m.user_id
                (unknownCmdMsg ((buildContext prefixes m).command.getD "null"))
              ∈ process prefixes reg m replyOk)
        ∧ ((buildContext prefixes m).isPrivate = false →
            ProcEv.sentGroup m.group_id
                (unknownCmdMsg ((buildContext prefixes m).command.getD "null"))
              ∈ process prefixes reg m replyOk))
      ∧ ((buildContext prefixes m).isCommand = false →
          countReplies (process prefixes reg m replyOk) = 0)
      ∧ ((handleMessage (buildContext prefixes m) reg).1 = true →
          countReplies (process prefixes reg m replyOk) = 0)
      ∧ (process prefixes reg m false =
          process prefixes reg m true ++
            (if !(handleMessage (buildContext prefixes m) reg).1
                && (buildContext prefixes m).isCommand
             then [ProcEv.replyErrorLogged] else [])) := by
  intro prefixes reg m replyOk
  refine ⟨?_, ?_, ?_, ?_⟩
  · intro hcmd hnh
    refine ⟨?_, ?_, ?_⟩
    · rw [countReplies_process]
      simp [hcmd, hnh, countReplies_replyUnknownCommand]
    · intro hp
      cases replyOk <;>
        simp [process, hcmd, hnh, replyUnknownCommand, hp]
    · intro hp
      cases replyOk <;>
        simp [process, hcmd, hnh, replyUnknownCommand, hp]
  · intro hcmd
    rw [countReplies_process]
    simp [hcmd]
  · intro hh
    rw [countReplies_process]
    simp [hh]
  · by_cases hcmd : (buildContext prefixes m).isCommand <;>
      by_cases hh : (handleMessage (buildContext prefixes m) reg).1 <;>
        by_cases hp : (buildContext prefixes m).isPrivate <;>
          simp [process, replyUnknownCommand, hcmd, hh, hp]

/-- Concrete instantiation of `unknown_command_reply_c10`: a private
message "#ping" with no plugins loaded triggers exactly one unknown-command
notice to user 42, even when the reply itself fails (the failure is only
logged). -/
theorem unknown_command_reply_c10_witness :
    countReplies (process ["#", ""] []
        { message_type := "private", user_id := 42, group_id := 0,
          message := MsgBody.str "#ping" } false) = 1
    ∧ ProcEv.sentPrivate 42 (unknownCmdMsg "ping")
        ∈ process ["#", ""] []
            { message_type := "private", user_id := 42, group_id := 0,
              message := MsgBody.str "#ping" } false := by
  have h := (unknown_command_reply_c10 ["#", ""] []
    { message_type := "private", user_id := 42, group_id := 0,
      message := MsgBody.str "#ping" } false).1 rfl rfl
  exact ⟨h.1, h.2.1 rfl⟩
